import Mathlib

/-!
# Verification of the amourAI ingestion/evaluation pipeline

A shallow embedding in Lean 4 of the core functions of the `backend` package:
the collector's chunker and raw-text parser (`agents/collector.py`), the
clusterer's insight deduplication (`agents/clusterer.py`), the evaluator's
score processing and fallback (`agents/evaluator.py`, `integrations/whitecircle.py`),
the model gateway's failover (`integrations/model_gateway.py`), and the
orchestrator's three ingestion pipelines (`agents/orchestrator.py`).

Modelling conventions:
* Python strings are Lean `String`s; `text[:n]` is the character-based `pyTake n`;
  `len` is `String.length`.
* Python floats are modelled as exact rationals `ℚ`; `round(x, n)` is
  modelled as decimal rounding on `ℚ` (`round3`).  Binary floating-point
  artefacts (half-even ties on inexact binary values) are outside the model.
* Fallible Python code returns `Except String α`, the error carrying the
  exception message.
* Network calls, the generative backend, `json.loads`, and the database are
  external collaborators: their responses are inputs of the embedded
  functions, and persistence is modelled by returning the rows that the
  code would insert.
-/

/- Batteries marks the `Rat` arithmetic kernels `@[irreducible]`, which
blocks `decide`-style evaluation of concrete rational computations; restore
the default reducibility locally so concrete instances evaluate. -/
attribute [local semireducible] Rat.mul Rat.add Rat.sub Rat.inv

/- ### Python string primitives

`str.split()` (no argument) splits on runs of whitespace and drops empty
pieces; `str.strip()` removes leading and trailing whitespace.  The
whitespace class is modelled by the ASCII whitespace characters Python
recognises. -/

/-- ASCII whitespace as recognised by Python's `str.split()` / `str.strip()`. -/
def pyIsSpace (c : Char) : Bool :=
  c = ' ' || c = '\t' || c = '\n' || c = '\r' || c = '\x0b' || c = '\x0c'

/-- Worker for `pySplit`: `cur` holds the current in-progress word, reversed. -/
def pySplitGo : List Char → List Char → List String
  | [], cur => if cur.isEmpty then [] else [String.mk cur.reverse]
  | c :: rest, cur =>
    if pyIsSpace c then
      if cur.isEmpty then pySplitGo rest []
      else String.mk cur.reverse :: pySplitGo rest []
    else
      pySplitGo rest (c :: cur)

/-- Python `text.split()`: whitespace-delimited words, empties dropped. -/
def pySplit (s : String) : List String :=
  pySplitGo s.data []

/-- Python `text.strip()`. -/
def pyStrip (s : String) : String :=
  String.mk (((s.data.dropWhile pyIsSpace).reverse.dropWhile pyIsSpace).reverse)

/-- Python `sep.join(xs)`. -/
def pyJoin (sep : String) : List String → String
  | [] => ""
  | [x] => x
  | x :: y :: rest => x ++ sep ++ pyJoin sep (y :: rest)

/-- Python `s[:n]` (character-based slicing). -/
def pyTake (n : Nat) (s : String) : String :=
  String.mk (s.data.take n)

/-- Python `s.lower()` (ASCII case folding). -/
def pyLower (s : String) : String :=
  String.mk (s.data.map Char.toLower)

/- ### Collector: chunking (`CollectorAgent.chunk_text`)

```python
CHUNK_SIZE = 800
CHUNK_OVERLAP = 100

def chunk_text(self, text):
    words = text.split()
    if len(words) <= self.CHUNK_SIZE:
        return [text]
    chunks = []
    start = 0
    while start < len(words):
        end = start + self.CHUNK_SIZE
        chunk = " ".join(words[start:end])
        chunks.append(chunk)
        start = end - self.CHUNK_OVERLAP
        if start >= len(words):
            break
    return chunks
```

The mid-loop `if start >= len(words): break` coincides with the loop guard,
so the loop appends the window `words[start:start+800]` for
`start = 0, 700, 1400, …` while `start < len(words)`. -/

def CHUNK_SIZE : Nat := 800

def CHUNK_OVERLAP : Nat := 100

/-- The word windows appended by the `while` loop of `chunk_text`,
starting at word offset `start`. -/
def chunkFrom (ws : List String) (start : Nat) : List (List String) :=
  if h : start < ws.length then
    (ws.drop start).take CHUNK_SIZE :: chunkFrom ws (start + (CHUNK_SIZE - CHUNK_OVERLAP))
  else
    []
termination_by ws.length - start
decreasing_by simp_wf; simp only [CHUNK_SIZE, CHUNK_OVERLAP]; omega

/-- `CollectorAgent.chunk_text`. -/
def chunk_text (text : String) : List String :=
  let words := pySplit text
  if words.length ≤ CHUNK_SIZE then [text]
  else (chunkFrom words 0).map (pyJoin " ")

/- ### Collector: raw text (`CollectorAgent.parse_raw_text`) -/

/-- `CollectorAgent.parse_raw_text`: strip, reject under 20 characters,
otherwise return the stripped text with source kind `"manual"`. -/
def parse_raw_text (text : String) : Except String (String × String) :=
  let cleaned := pyStrip text
  if cleaned.length < 20 then
    .error "Text too short to extract meaningful insights (minimum 20 characters)"
  else
    .ok (cleaned, "manual")

/- ### Evaluator: score processing (`EvaluatorAgent`, `config.EVAL_THRESHOLDS`)

JSON scalar values as they appear in a parsed scores dict.  Python's
`float(val)` succeeds on numbers and booleans and on numeric strings;
`None` and non-numeric strings raise.  Numeric-string parsing is modelled
by a plain decimal parser (`pyFloatOfString`), sufficient for the JSON
payloads at hand. -/

inductive JVal where
  | num (q : ℚ)
  | str (s : String)
  | bool (b : Bool)
  | null
deriving DecidableEq

/-- Decimal parser modelling Python `float(s)` on plain signed decimals
(`"0.35"`, `"-2"`); anything else is a parse failure. -/
def pyFloatOfString (s : String) : Option ℚ :=
  let core := fun (t : List Char) =>
    match t.span Char.isDigit with
    | (intPart, rest) =>
      match rest with
      | [] => if intPart.isEmpty then none
              else some ((String.mk intPart).toNat! : ℚ)
      | '.' :: fracPart =>
        if intPart.isEmpty ∨ fracPart.isEmpty ∨ ¬ fracPart.all Char.isDigit then none
        else some (((String.mk intPart).toNat! : ℚ)
          + ((String.mk fracPart).toNat! : ℚ) / (10 ^ fracPart.length : ℚ))
      | _ => none
  match s.data with
  | '-' :: t => (core t).map (fun q => -q)
  | '+' :: t => core t
  | t => core t

/-- Python `float(val)` on a JSON scalar: `none` models a raised
`TypeError`/`ValueError`. -/
def pyFloat : JVal → Option ℚ
  | .num q => some q
  | .bool b => some (if b then 1 else 0)
  | .str s => pyFloatOfString s
  | .null => none

/-- Python truthiness of an optional JSON scalar (`None`/missing, `null`,
`""`, `0` and `False` are falsy). -/
def jTruthy : Option JVal → Bool
  | none => false
  | some .null => false
  | some (.str s) => !(s = "")
  | some (.bool b) => b
  | some (.num q) => !(q = 0)

/-- `EvaluatorAgent._clamp` (identical in `WhiteCircleClient._clamp`):
`float` then clamp to `[0, 1]`, defaulting to `0.5` on conversion failure. -/
def pyClamp (val : JVal) : ℚ :=
  match pyFloat val with
  | some v => max 0 (min 1 v)
  | none => 1/2

/-- `scores.get(name, 0.5)` followed by `_clamp`. -/
def getClamped (v : Option JVal) : ℚ :=
  match v with
  | none => 1/2
  | some j => pyClamp j

/-- `config.EVAL_THRESHOLDS`, in Python dict (insertion) order. -/
def EVAL_THRESHOLDS : List (String × ℚ) :=
  [("relevance", 6/10), ("evidence_coverage", 5/10), ("hallucination_risk", 4/10),
   ("actionability", 5/10), ("freshness", 4/10)]

/-- The floor of a rational as a computable integer division
(`Int.fdiv` rounds toward negative infinity). -/
def floorQ (q : ℚ) : ℤ :=
  Int.fdiv q.num q.den

/-- Python `round(x, 3)` modelled on exact rationals (ties round up;
Python's float round is half-even on the binary value, which differs only
at exact binary ties). -/
def round3 (q : ℚ) : ℚ :=
  ((floorQ (q * 1000 + 1/2)) : ℚ) / 1000

/-- Python `f"{v:.2f}"` for clamped scores in `[0, 1]`. -/
def fmtF2 (q : ℚ) : String :=
  let n : ℤ := floorQ (q * 100 + 1/2)
  toString (n / 100) ++ "." ++ (if n % 100 < 10 then "0" else "") ++ toString (n % 100)

/-- Python `str(threshold)` for the one-decimal threshold floats. -/
def fmtThresh (q : ℚ) : String :=
  let n : ℤ := floorQ (q * 10 + 1/2)
  toString (n / 10) ++ "." ++ toString (n % 10)

/-- One entry of the synthesized flag reason:
`f"{metric} ({result[metric]:.2f}) below threshold ({threshold})"`. -/
def reasonString (metric : String) (value threshold : ℚ) : String :=
  metric ++ " (" ++ fmtF2 value ++ ") below threshold (" ++ fmtThresh threshold ++ ")"

/-- The parsed JSON scores dict, restricted to the keys the code reads
(`scores.get(...)`); `none` is a missing key. -/
structure ScoresDict where
  relevance : Option JVal := none
  evidence_coverage : Option JVal := none
  hallucination_risk : Option JVal := none
  actionability : Option JVal := none
  freshness : Option JVal := none
  flag_reason : Option JVal := none
deriving DecidableEq

/-- The evaluation result dict (`EvaluationScore`-shaped). -/
structure EvalResult where
  relevance : ℚ
  evidence_coverage : ℚ
  hallucination_risk : ℚ
  actionability : ℚ
  freshness : ℚ
  overall_score : ℚ
  flagged : Bool
  flag_reason : Option JVal
deriving DecidableEq

/-- `result.get(metric, 1.0)` inside the threshold loop, given the five
clamped rubric values. -/
def metricValue (r e h a f : ℚ) (name : String) : ℚ :=
  if name = "relevance" then r
  else if name = "evidence_coverage" then e
  else if name = "hallucination_risk" then h
  else if name = "actionability" then a
  else if name = "freshness" then f
  else 1

/-- The clamped value of a named rubric of a scores dict, as the threshold
loop of `_process_scores` sees it. -/
def clampedValue (s : ScoresDict) (name : String) : ℚ :=
  metricValue (getClamped s.relevance) (getClamped s.evidence_coverage)
    (getClamped s.hallucination_risk) (getClamped s.actionability)
    (getClamped s.freshness) name

/-- `EvaluatorAgent._process_scores`: clamp the five rubrics, compute the
weighted overall score rounded to 3 decimals, flag when any rubric is
strictly below its threshold, and synthesize a flag reason when flagged
without a truthy scorer-supplied one. -/
def processScores (s : ScoresDict) : EvalResult :=
  let r := getClamped s.relevance
  let e := getClamped s.evidence_coverage
  let h := getClamped s.hallucination_risk
  let a := getClamped s.actionability
  let f := getClamped s.freshness
  let overall := round3 (r * (25/100) + e * (25/100) + h * (2/10) + a * (2/10) + f * (1/10))
  let missed := EVAL_THRESHOLDS.filter (fun p => decide (metricValue r e h a f p.1 < p.2))
  let flagged := !missed.isEmpty
  let reason :=
    if flagged = true ∧ jTruthy s.flag_reason = false then
      some (JVal.str (pyJoin "; " (missed.map (fun p => reasonString p.1 (metricValue r e h a f p.1) p.2))))
    else s.flag_reason
  { relevance := r, evidence_coverage := e, hallucination_risk := h,
    actionability := a, freshness := f, overall_score := overall,
    flagged := flagged, flag_reason := reason }

/-- `EvaluatorAgent._fallback_evaluation`. -/
def fallback_evaluation : EvalResult :=
  { relevance := 1/2, evidence_coverage := 1/2, hallucination_risk := 1/2,
    actionability := 1/2, freshness := 1/2, overall_score := 1/2,
    flagged := true,
    flag_reason := some (.str "Automated evaluation failed — manual review required") }

/-- `text.find("{")` on the character list. -/
def firstIdxOf (c : Char) (l : List Char) : Option Nat :=
  l.findIdx? (fun d => d = c)

/-- The `start = text.find("{"); end = text.rfind("}") + 1;
if start >= 0 and end > start: text[start:end]` slice of
`_evaluate_with_llm`; `none` when no JSON object substring is found. -/
def extractJsonObject (text : String) : Option String :=
  match firstIdxOf '{' text.data, firstIdxOf '}' text.data.reverse with
  | some s, some revE =>
    let e := text.data.length - revE   -- rfind index + 1
    if s < e then some (String.mk ((text.data.drop s).take (e - s))) else none
  | _, _ => none

/-- `EvaluatorAgent._evaluate_with_llm`, with the gateway response and the
`json.loads` collaborator abstracted: a chat failure, a response with no
`{...}` substring, or a JSON parse failure all fall back to
`fallback_evaluation` (the whole body is inside `try/except`). -/
def evaluateWithLLM (chatResult : Except String String)
    (jsonParse : String → Option ScoresDict) : EvalResult :=
  match chatResult with
  | .error _ => fallback_evaluation
  | .ok text =>
    match extractJsonObject text with
    | none => fallback_evaluation
    | some sub =>
      match jsonParse sub with
      | none => fallback_evaluation
      | some scores => processScores scores

/-- `EvaluatorAgent.evaluate_artifact`: White Circle first when enabled
(any exception falls through), then the LLM-as-judge path. -/
def evaluate_artifact (wcEnabled : Bool) (wcOutcome : Except String EvalResult)
    (chatResult : Except String String)
    (jsonParse : String → Option ScoresDict) : EvalResult :=
  if wcEnabled then
    match wcOutcome with
    | .ok r => r
    | .error _ => evaluateWithLLM chatResult jsonParse
  else
    evaluateWithLLM chatResult jsonParse

/-- `WhiteCircleClient._process_whitecircle_response`.  The argument is the
resolved scores dict `data.get("scores", data)` plus the top-level
`data.get("flag_reason")`; the initial reason is the Python
`scores.get("flag_reason") or data.get("flag_reason")`. -/
def processWhitecircleResponse (scores : ScoresDict) (topFlagReason : Option JVal) : EvalResult :=
  let initialReason := if jTruthy scores.flag_reason then scores.flag_reason else topFlagReason
  processScores { scores with flag_reason := initialReason }

/- ### Model gateway (`ModelGateway.chat`)

```python
async def chat(self, prompt, max_tokens=MAX_TOKENS, system=None):
    if self.mode == "blaxel":
        return await self._chat_blaxel(prompt, max_tokens, system)
    else:
        return self._chat_anthropic(prompt, max_tokens, system)

async def _chat_blaxel(self, prompt, max_tokens, system):
    try:
        ... # primary (Blaxel) call
    except Exception as e:
        if self._anthropic_client:
            return self._chat_anthropic(prompt, max_tokens, system)
        raise
```

The two backends are collaborators: each is a function of the identical
`(prompt, max_tokens, system)` triple returning text or raising.  The bare
`raise` re-raises the primary's exception; an exception of the secondary
call made inside the `except` block propagates as the secondary's. -/

inductive GatewayMode where
  | blaxel
  | anthropic
deriving DecidableEq

/-- A generative backend: text or exception per `(prompt, max_tokens, system)`. -/
def Backend : Type := String → Nat → Option String → Except String String

namespace ModelGateway

/-- `ModelGateway.chat`: in `blaxel` mode try the primary Blaxel call and
fall back to the direct Anthropic client when one is configured; in
`anthropic` mode call Anthropic directly. -/
def chat (mode : GatewayMode) (blaxelCall anthropicCall : Backend)
    (anthropicConfigured : Bool)
    (prompt : String) (maxTokens : Nat) (system : Option String) :
    Except String String :=
  match mode with
  | .blaxel =>
    match blaxelCall prompt maxTokens system with
    | .ok t => .ok t
    | .error e =>
      if anthropicConfigured then anthropicCall prompt maxTokens system
      else .error e
  | .anthropic => anthropicCall prompt maxTokens system

end ModelGateway

/- ### Clusterer: insight extraction and deduplication
(`ClustererAgent.extract_insights`)

An insight draft is the JSON object returned by the extraction prompt,
restricted to the fields the code reads (`.get` with defaults).  Per-chunk
LLM outcomes are collaborator inputs: an exception is caught, logged and
skipped; a response parse failure inside `_extract_from_chunk` yields `[]`. -/

structure RawInsight where
  text : Option String := none
  sentiment : Option String := none
  sentiment_score : Option ℚ := none
  persona : Option String := none
  quote : Option String := none
  confidence : Option ℚ := none
deriving DecidableEq

/-- The dedup key: `ins.get("text", "")[:80].lower().strip()`. -/
def dedupKey (ins : RawInsight) : String :=
  pyStrip (pyLower (pyTake 80 (ins.text.getD "")))

/-- The dedup loop of `extract_insights`: `seen_texts` is the set of keys
already kept, first occurrence wins. -/
def dedupAux (seen : List String) : List RawInsight → List RawInsight
  | [] => []
  | x :: xs =>
    if dedupKey x ∈ seen then dedupAux seen xs
    else x :: dedupAux (dedupKey x :: seen) xs

/-- The collected drafts: chunk results that raised are skipped. -/
def collectInsights (chunkResults : List (Except String (List RawInsight))) :
    List RawInsight :=
  (chunkResults.filterMap Except.toOption).flatten

/-- `ClustererAgent.extract_insights`: collect the per-chunk drafts, then
deduplicate by `dedupKey`, first occurrence wins. -/
def extract_insights (chunkResults : List (Except String (List RawInsight))) :
    List RawInsight :=
  dedupAux [] (collectInsights chunkResults)

/- ### Clusterer output themes and orchestrator persistence

A theme draft is the JSON object returned by the clustering prompt,
restricted to the fields the orchestrator reads. -/

structure RawTheme where
  name : Option String := none
  description : Option String := none
  sentiment : Option String := none
  severity_score : Option ℚ := none
  frequency : Option Int := none
  recency_days : Option Int := none
  is_weakness : Option Bool := none
  differentiation_move : Option String := none
  insight_indices : List Int := []
deriving DecidableEq

/-- A persisted `Theme` row (per-competitor fields only). -/
structure ThemeRow where
  name : String
  description : String
  sentiment : String
  severity_score : ℚ
  frequency : Int
  recency_days : Int
  is_weakness : Bool
  differentiation_move : String
deriving DecidableEq

/-- The `Theme(...)` constructor call of the orchestrator's theme loop,
with the `.get` defaults. -/
def buildTheme (rt : RawTheme) : ThemeRow :=
  { name := rt.name.getD "Unnamed Theme"
    description := rt.description.getD ""
    sentiment := rt.sentiment.getD "neutral"
    severity_score := rt.severity_score.getD 0
    frequency := rt.frequency.getD 1
    recency_days := rt.recency_days.getD 0
    is_weakness := rt.is_weakness.getD false
    differentiation_move := rt.differentiation_move.getD "" }

/-- The `ThemeInsight` join rows created for one theme: each listed index
with `0 <= idx < numInsights`, in order, out-of-range indices silently
skipped (duplicates are kept — each creates a row). -/
def linksOf (numInsights : Nat) (rt : RawTheme) : List Nat :=
  rt.insight_indices.filterMap
    (fun idx => if 0 ≤ idx ∧ idx < (numInsights : Int) then some idx.toNat else none)

/-- The theme-persistence loop (`for raw_theme in raw_themes: ...`) of all
three ingestion pipelines: one `Theme` row plus its `ThemeInsight` links
per draft. -/
def persistThemes (rawThemes : List RawTheme) (numInsights : Nat) :
    List (ThemeRow × List Nat) :=
  rawThemes.map (fun rt => (buildTheme rt, linksOf numInsights rt))

/- ### Orchestrator: ingestion pipelines (`Orchestrator`)

Persistence is modelled by returning the rows the pipeline inserts.  A
`Source` row's transient `processing` state is not observable at the end
of a run and is not modelled; only the terminal row is.  The collaborator
responses (fetch outcomes, the extraction/clustering LLM responses) are
inputs.  `redact` is the `CollectorAgent.redact_pii` text→text pass; its
three `re.sub` rules are Python-regex internals, so the pipeline models
are parametric in it (every theorem below holds for an arbitrary pure
redaction function). -/

/-- A persisted `Source` row (terminal state). -/
structure SourceRow where
  url : Option String
  source_type : String
  status : String
  raw_content : Option String
  error_message : Option String
deriving DecidableEq

/-- A persisted `Insight` row (per-competitor fields only). -/
structure InsightRow where
  text : String
  sentiment : String
  sentiment_score : ℚ
  persona : String
  quote : String
  confidence : ℚ
  source_url : Option String
deriving DecidableEq

/-- The `Insight(...)` constructor call of the ingestion pipelines, with
the `.get` defaults; `srcUrl` is the pipeline-specific `source_url`. -/
def buildInsight (srcUrl : Option String) (ri : RawInsight) : InsightRow :=
  { text := ri.text.getD ""
    sentiment := ri.sentiment.getD "neutral"
    sentiment_score := ri.sentiment_score.getD 0
    persona := ri.persona.getD "Unknown"
    quote := ri.quote.getD ""
    confidence := ri.confidence.getD (1/2)
    source_url := srcUrl }

deriving instance DecidableEq for Except

/-- One URL input of `ingest_sources` together with its
`CollectorAgent.fetch_url` outcome `(text, detected_type)` or exception. -/
structure UrlFetch where
  url : String
  outcome : Except String (String × String)
deriving DecidableEq

/-- The collaborator responses and inputs of one `ingest_sources` run.
`extraction` is the LLM response for the single combined-chunk
`extract_insights` call. -/
structure IngestInput where
  compExists : Bool
  urlFetches : List UrlFetch
  rawTexts : List String
  extraction : Except String (List RawInsight)
  rawThemes : List RawTheme

/-- The outcome of one ingestion run: the summary dict plus the rows the
run persisted and the chunk list feeding the extraction prompt (each chunk
paired with its source label). -/
structure IngestResult where
  status : String
  sources_created : Nat
  insights_extracted : Nat
  themes_generated : Nat
  message : String
  sources : List SourceRow
  insights : List InsightRow
  themes : List (ThemeRow × List Nat)
  allChunks : List (String × String)

/-- The terminal `Source` row of one URL iteration of `ingest_sources`. -/
def urlSourceRow (source_type : String) (redact : String → String)
    (uf : UrlFetch) : SourceRow :=
  match uf.outcome with
  | .ok (t, dtype) =>
    { url := some uf.url, source_type := dtype, status := "done",
      raw_content := some (pyTake 10000 (redact t)), error_message := none }
  | .error e =>
    { url := some uf.url,
      source_type := if source_type ≠ "manual" then source_type else "web",
      status := "failed", raw_content := none, error_message := some (pyTake 500 e) }

/-- The chunks one URL iteration appends to `all_chunks`. -/
def urlChunksOf (redact : String → String) (uf : UrlFetch) : List (String × String) :=
  match uf.outcome with
  | .ok (t, _) => (chunk_text (redact t)).map (fun c => (c, uf.url))
  | .error _ => []

/-- The terminal `Source` row of one raw-text iteration of `ingest_sources`. -/
def rawSourceRow (redact : String → String) (raw : String) : SourceRow :=
  match parse_raw_text raw with
  | .ok (t, _) =>
    { url := none, source_type := "manual", status := "done",
      raw_content := some (pyTake 10000 (redact t)), error_message := none }
  | .error e =>
    { url := none, source_type := "manual", status := "failed",
      raw_content := none, error_message := some (pyTake 500 e) }

/-- The chunks one raw-text iteration appends to `all_chunks`. -/
def rawChunksOf (redact : String → String) (raw : String) : List (String × String) :=
  match parse_raw_text raw with
  | .ok (t, _) => (chunk_text (redact t)).map (fun c => (c, "manual"))
  | .error _ => []

/-- The per-source error messages accumulated by `ingest_sources`. -/
def ingestErrors (inp : IngestInput) : List String :=
  inp.urlFetches.filterMap
    (fun uf => match uf.outcome with
      | .error e => some ("URL " ++ uf.url ++ ": " ++ pyTake 200 e)
      | .ok _ => none)
  ++ inp.rawTexts.filterMap
    (fun raw => match parse_raw_text raw with
      | .error e => some ("Raw text: " ++ pyTake 200 e)
      | .ok _ => none)

/-- `Orchestrator.ingest_sources`.  The not-found message drops the
numeric competitor id of the Python f-string. -/
def ingest_sources (inp : IngestInput) (source_type : String)
    (redact : String → String) : IngestResult :=
  if ¬ inp.compExists then
    { status := "error", sources_created := 0, insights_extracted := 0,
      themes_generated := 0, message := "Competitor not found",
      sources := [], insights := [], themes := [], allChunks := [] }
  else
    let sources := inp.urlFetches.map (urlSourceRow source_type redact)
      ++ inp.rawTexts.map (rawSourceRow redact)
    let allChunks := (inp.urlFetches.map (urlChunksOf redact)).flatten
      ++ (inp.rawTexts.map (rawChunksOf redact)).flatten
    let errors := ingestErrors inp
    let created := (inp.urlFetches.filter (fun uf => uf.outcome.isOk)).length
      + (inp.rawTexts.filter (fun raw => (parse_raw_text raw).isOk)).length
    if allChunks.isEmpty then
      { status := if errors.isEmpty then "warning" else "error",
        sources_created := created, insights_extracted := 0, themes_generated := 0,
        message := if errors.isEmpty then "No content to process" else pyJoin "; " errors,
        sources := sources, insights := [], themes := [], allChunks := allChunks }
    else
      let raw_insights := extract_insights [inp.extraction]
      let primary_url := ((allChunks.map Prod.snd).head?).getD "unknown"
      let insights := raw_insights.map
        (buildInsight (if primary_url ≠ "manual" then some primary_url else none))
      let themes := persistThemes inp.rawThemes raw_insights.length
      { status := "success", sources_created := created,
        insights_extracted := insights.length, themes_generated := themes.length,
        message := if errors.isEmpty then "Pipeline complete."
          else "Pipeline complete. " ++ pyJoin "; " errors,
        sources := sources, insights := insights, themes := themes,
        allChunks := allChunks }

/- ### Orchestrator: PDF pipeline (`Orchestrator.ingest_pdf`) -/

/-- Inputs of one `ingest_pdf` run: the `extract_pdf` outcome (the
extracted text, before redaction) and the LLM collaborator responses. -/
structure PdfInput where
  compExists : Bool
  pdfOutcome : Except String String
  filename : String
  extraction : Except String (List RawInsight)
  rawThemes : List RawTheme

/-- `Orchestrator.ingest_pdf`.  PDF chunks carry the `pdf:{filename}`
source label of the extraction call. -/
def ingest_pdf (inp : PdfInput) (redact : String → String) : IngestResult :=
  if ¬ inp.compExists then
    { status := "error", sources_created := 0, insights_extracted := 0,
      themes_generated := 0, message := "Competitor not found",
      sources := [], insights := [], themes := [], allChunks := [] }
  else
    match inp.pdfOutcome with
    | .error e =>
      { status := "error", sources_created := 0, insights_extracted := 0,
        themes_generated := 0,
        message := "PDF extraction failed: " ++ pyTake 300 e,
        sources := [{ url := none, source_type := "pdf", status := "failed",
                      raw_content := none, error_message := some (pyTake 500 e) }],
        insights := [], themes := [], allChunks := [] }
    | .ok t0 =>
      let t := redact t0
      let chunks := chunk_text t
      let raw_insights := extract_insights [inp.extraction]
      let insights := raw_insights.map (buildInsight none)
      let themes := persistThemes inp.rawThemes raw_insights.length
      { status := "success", sources_created := 1,
        insights_extracted := insights.length, themes_generated := themes.length,
        message := "PDF '" ++ inp.filename ++ "' processed ("
          ++ toString t.length ++ " chars, " ++ toString chunks.length ++ " chunks).",
        sources := [{ url := none, source_type := "pdf", status := "done",
                      raw_content := some (pyTake 10000 t), error_message := none }],
        insights := insights, themes := themes,
        allChunks := chunks.map (fun c => (c, "pdf:" ++ inp.filename)) }

/- ### Orchestrator: auto-research pipeline (`Orchestrator.research_and_ingest`) -/

/-- One search result of `CollectorAgent.research_competitor`. -/
structure SearchResult where
  title : String
  url : String
  snippet : String
deriving DecidableEq

/-- `CollectorAgent.fetch_research_results`: fetch the first `maxFetch`
results, keep `(text, source_type, url)` on success, fall back to a
snippet-based lightweight source when the fetch fails and the snippet is
longer than 30 characters, and drop the result otherwise. -/
def fetch_research_results
    (results : List (SearchResult × Except String (String × String)))
    (maxFetch : Nat) : List (String × String × String) :=
  (results.take maxFetch).filterMap (fun p =>
    match p.2 with
    | .ok (t, stype) => some (t, stype, p.1.url)
    | .error _ =>
      if p.1.snippet ≠ "" ∧ 30 < p.1.snippet.length then
        some ("Title: " ++ p.1.title ++ "\nURL: " ++ p.1.url ++ "\n\n" ++ p.1.snippet,
          "web_snippet", p.1.url)
      else none)

/-- The `[{title}] ({url}): {snippet}` lines of the snippet source. -/
def snippetTexts (results : List SearchResult) : List String :=
  results.filterMap (fun r =>
    if r.snippet ≠ "" then
      some ("[" ++ r.title ++ "] (" ++ r.url ++ "): " ++ r.snippet)
    else none)

/-- Inputs of one `research_and_ingest` run: each search result paired
with its fetch outcome, plus the LLM collaborator responses. -/
structure ResearchInput where
  compExists : Bool
  compName : String
  searchOutcome : Except String (List (SearchResult × Except String (String × String)))
  extraction : Except String (List RawInsight)
  rawThemes : List RawTheme

/-- `Orchestrator.research_and_ingest` (fetching at most 5 results).  The
per-source loop body (redact / slice / chunk on an already-fetched text)
cannot raise, so its `except` branch is dead and the run's `errors` list
is empty. -/
def research_and_ingest (inp : ResearchInput) (redact : String → String) :
    IngestResult :=
  if ¬ inp.compExists then
    { status := "error", sources_created := 0, insights_extracted := 0,
      themes_generated := 0, message := "Competitor not found",
      sources := [], insights := [], themes := [], allChunks := [] }
  else
    match inp.searchOutcome with
    | .error e =>
      { status := "error", sources_created := 0, insights_extracted := 0,
        themes_generated := 0, message := "Web research failed: " ++ pyTake 300 e,
        sources := [], insights := [], themes := [], allChunks := [] }
    | .ok pairs =>
      if pairs.isEmpty then
        { status := "warning", sources_created := 0, insights_extracted := 0,
          themes_generated := 0,
          message := "No search results found for this competitor.",
          sources := [], insights := [], themes := [], allChunks := [] }
      else
        let fetched := fetch_research_results pairs 5
        let fetchedSources := fetched.map (fun f =>
          { url := some f.2.2, source_type := "research_" ++ f.2.1,
            status := "done", raw_content := some (pyTake 10000 (redact f.1)),
            error_message := none : SourceRow })
        let fetchedChunks := (fetched.map (fun f =>
          (chunk_text (redact f.1)).map (fun c => (c, f.2.2)))).flatten
        let snips := snippetTexts (pairs.map Prod.fst)
        let sources := if snips.isEmpty then fetchedSources
          else fetchedSources
            ++ [{ url := none, source_type := "research_snippets", status := "done",
                  raw_content := some (pyTake 10000 (pyJoin "\n\n" snips)),
                  error_message := none }]
        let allChunks := if snips.isEmpty then fetchedChunks
          else fetchedChunks ++ [(pyJoin "\n\n" snips, "search_snippets")]
        let created := fetched.length + (if snips.isEmpty then 0 else 1)
        if allChunks.isEmpty then
          { status := "warning", sources_created := created,
            insights_extracted := 0, themes_generated := 0,
            message := "Could not fetch any research results.",
            sources := sources, insights := [], themes := [], allChunks := allChunks }
        else
          let raw_insights := extract_insights [inp.extraction]
          let insights := raw_insights.map (buildInsight (some "internet_research"))
          let themes := persistThemes inp.rawThemes raw_insights.length
          { status := "success", sources_created := created,
            insights_extracted := insights.length, themes_generated := themes.length,
            message := "Researched '" ++ inp.compName ++ "': "
              ++ toString pairs.length ++ " search results found, "
              ++ toString created ++ " sources fetched, "
              ++ toString raw_insights.length ++ " insights extracted.",
            sources := sources, insights := insights, themes := themes,
            allChunks := allChunks }

/- ## Claims -/

/- ### C10: `parse_raw_text` accepts exactly stripped length ≥ 20 -/

/-- C10: `parse_raw_text` raises `ValueError` exactly when the
whitespace-stripped input has fewer than 20 characters, and otherwise
returns the stripped text unchanged, paired with source kind `"manual"`
(in particular the 50-character minimum of `fetch_url` does not apply
here: a 20–49 character stripped text is accepted). -/
theorem parse_raw_text_min_length (text : String) :
    ((∃ e, parse_raw_text text = .error e) ↔ (pyStrip text).length < 20) ∧
    (20 ≤ (pyStrip text).length →
      parse_raw_text text = .ok (pyStrip text, "manual")) := by
  unfold parse_raw_text
  by_cases h : (pyStrip text).length < 20
  · exact ⟨by simp [h], fun hle => absurd h (by omega)⟩
  · exact ⟨by simp [h], fun _ => by simp [h]⟩

/-- C10 witness: a pasted text of 25 characters (under the 50-character
fetch minimum) is accepted unchanged. -/
theorem parse_raw_text_min_length_witness :
    parse_raw_text "This text has 25 chars OK"
      = .ok (pyStrip "This text has 25 chars OK", "manual") :=
  (parse_raw_text_min_length "This text has 25 chars OK").2 (by decide)

/- ### C2: gateway failover returns the secondary's outcome -/

/-- C2: for every prompt, max-token budget and optional system
instruction, if the primary (Blaxel) backend call raises and the secondary
(direct Anthropic) client is configured, `ModelGateway.chat` returns the
secondary's text when the secondary succeeds, and the caller receives the
secondary's exception when both raise. -/
theorem chat_failover_secondary (blaxelCall anthropicCall : Backend)
    (prompt : String) (maxTokens : Nat) (system : Option String)
    (e e2 t : String) :
    (blaxelCall prompt maxTokens system = .error e →
      anthropicCall prompt maxTokens system = .ok t →
      ModelGateway.chat .blaxel blaxelCall anthropicCall true prompt maxTokens system
        = .ok t) ∧
    (blaxelCall prompt maxTokens system = .error e →
      anthropicCall prompt maxTokens system = .error e2 →
      ModelGateway.chat .blaxel blaxelCall anthropicCall true prompt maxTokens system
        = .error e2) := by
  constructor <;> intro h1 h2 <;> simp [ModelGateway.chat, h1, h2]

/-- C2 witness: concrete failing primary with succeeding and failing
secondaries. -/
theorem chat_failover_secondary_witness :
    ModelGateway.chat .blaxel (fun _ _ _ => .error "primary down")
      (fun _ _ _ => .ok "secondary text") true "p" 64 none = .ok "secondary text" ∧
    ModelGateway.chat .blaxel (fun _ _ _ => .error "primary down")
      (fun _ _ _ => .error "secondary down") true "p" 64 none
      = .error "secondary down" :=
  ⟨(chat_failover_secondary (fun _ _ _ => .error "primary down")
      (fun _ _ _ => .ok "secondary text") "p" 64 none "primary down" "x" "secondary text").1
      rfl rfl,
   (chat_failover_secondary (fun _ _ _ => .error "primary down")
      (fun _ _ _ => .error "secondary down") "p" 64 none "primary down" "secondary down" "t").2
      rfl rfl⟩

/- ### C3: evaluation degrades to the fixed conservative result -/

/-- C3: `evaluate_artifact` never raises past its boundary; whenever the
external scorer is unconfigured or fails and the LLM-as-judge path also
fails (gateway exception, no `{...}` in the response, or a JSON parse
failure), it returns the fixed conservative result: all five rubrics 0.5,
overall 0.5, flagged, with the manual-review reason. -/
theorem evaluate_artifact_conservative (wcEnabled : Bool)
    (wcOutcome : Except String EvalResult) (chatResult : Except String String)
    (jsonParse : String → Option ScoresDict)
    (hwc : wcEnabled = false ∨ ∃ e, wcOutcome = .error e)
    (hllm : (∃ e, chatResult = .error e) ∨
      (∃ t, chatResult = .ok t ∧ extractJsonObject t = none) ∨
      (∃ t sub, chatResult = .ok t ∧ extractJsonObject t = some sub ∧
        jsonParse sub = none)) :
    evaluate_artifact wcEnabled wcOutcome chatResult jsonParse = fallback_evaluation ∧
    fallback_evaluation.relevance = 1/2 ∧
    fallback_evaluation.evidence_coverage = 1/2 ∧
    fallback_evaluation.hallucination_risk = 1/2 ∧
    fallback_evaluation.actionability = 1/2 ∧
    fallback_evaluation.freshness = 1/2 ∧
    fallback_evaluation.overall_score = 1/2 ∧
    fallback_evaluation.flagged = true ∧
    fallback_evaluation.flag_reason
      = some (.str "Automated evaluation failed — manual review required") := by
  have hL : evaluateWithLLM chatResult jsonParse = fallback_evaluation := by
    rcases hllm with ⟨e, he⟩ | ⟨t, ht, hx⟩ | ⟨t, sub, ht, hx, hp⟩
    · simp [evaluateWithLLM, he]
    · simp [evaluateWithLLM, ht, hx]
    · simp [evaluateWithLLM, ht, hx, hp]
  refine ⟨?_, rfl, rfl, rfl, rfl, rfl, rfl, rfl, rfl⟩
  rcases hwc with hw | ⟨e, hw⟩ <;> simp [evaluate_artifact, hw, hL]

/-- C3 witness: White Circle unconfigured and the gateway raising. -/
theorem evaluate_artifact_conservative_witness :
    evaluate_artifact false (.error "unused") (.error "gateway exhausted")
      (fun _ => none) = fallback_evaluation ∧
    fallback_evaluation.flagged = true :=
  ⟨(evaluate_artifact_conservative false (.error "unused") (.error "gateway exhausted")
      (fun _ => none) (Or.inl rfl) (Or.inl ⟨"gateway exhausted", rfl⟩)).1,
   (evaluate_artifact_conservative false (.error "unused") (.error "gateway exhausted")
      (fun _ => none) (Or.inl rfl) (Or.inl ⟨"gateway exhausted", rfl⟩)).2.2.2.2.2.2.2.1⟩

/- ### C9: the weighted overall-score formula -/

/-- C9: for every parsed scores dict, the stored overall score equals
`0.25·relevance + 0.25·evidence_coverage + 0.2·hallucination_risk +
0.2·actionability + 0.1·freshness` on the clamped values, rounded to three
decimals — in both the LLM-as-judge path (`_process_scores`) and the
White Circle path (`_process_whitecircle_response`) — and in particular
relevance 0.8, evidence_coverage 0.6, hallucination_risk 0.9,
actionability 0.7, freshness 1.0 yields exactly 0.77. -/
theorem overall_score_formula :
    (∀ s : ScoresDict, (processScores s).overall_score =
      round3 (getClamped s.relevance * (25/100) + getClamped s.evidence_coverage * (25/100)
        + getClamped s.hallucination_risk * (2/10) + getClamped s.actionability * (2/10)
        + getClamped s.freshness * (1/10))) ∧
    (∀ (s : ScoresDict) (top : Option JVal),
      (processWhitecircleResponse s top).overall_score =
      round3 (getClamped s.relevance * (25/100) + getClamped s.evidence_coverage * (25/100)
        + getClamped s.hallucination_risk * (2/10) + getClamped s.actionability * (2/10)
        + getClamped s.freshness * (1/10))) ∧
    (processScores
      { relevance := some (.num (8/10)), evidence_coverage := some (.num (6/10)),
        hallucination_risk := some (.num (9/10)), actionability := some (.num (7/10)),
        freshness := some (.num 1) }).overall_score = 77/100 :=
  ⟨fun _ => rfl, fun _ _ => rfl, by decide⟩

/- ### C1: the gate decision is strict comparison against the thresholds -/

/-- A filtered list is non-empty exactly when some element passes the filter. -/
theorem filter_isEmpty_eq_false_iff {α : Type} (p : α → Bool) (l : List α) :
    (l.filter p).isEmpty = false ↔ ∃ x ∈ l, p x = true := by
  induction l with
  | nil => simp
  | cons x xs ih =>
    by_cases hx : p x = true <;> simp [List.filter, hx, ih]

/-- A scores dict whose relevance is exactly its 0.6 threshold and whose
other rubrics are well above theirs. -/
def c1EqualThresholdScores : ScoresDict :=
  { relevance := some (.num (6/10)), evidence_coverage := some (.num 1),
    hallucination_risk := some (.num 1), actionability := some (.num 1),
    freshness := some (.num 1) }

/-- C1 counterexample: the claim says a rubric score exactly equal to its
threshold makes the result flagged (`not strictly above`); but
`_process_scores` flags only on strict `<`, so relevance = 0.6 against
threshold 0.6 is NOT flagged. -/
theorem processScores_equal_threshold_not_flagged :
    ("relevance", (6/10 : ℚ)) ∈ EVAL_THRESHOLDS ∧
    getClamped c1EqualThresholdScores.relevance = 6/10 ∧
    (processScores c1EqualThresholdScores).flagged = false := by
  refine ⟨by decide, by decide, by decide⟩

/-- C1 (amended): `flagged = true` iff at least one clamped rubric value is
**strictly below** its configured threshold (0.6, 0.5, 0.4, 0.5, 0.4); a
value exactly equal to its threshold does not flag.  When flagged with no
truthy scorer-supplied reason, the synthesized `flag_reason` joins, with
`"; "`, one entry per rubric strictly below its threshold, each naming the
rubric with its clamped value and the threshold. -/
theorem processScores_flag_spec (s : ScoresDict) :
    ((processScores s).flagged = true ↔
      (getClamped s.relevance < 6/10 ∨ getClamped s.evidence_coverage < 5/10 ∨
       getClamped s.hallucination_risk < 4/10 ∨ getClamped s.actionability < 5/10 ∨
       getClamped s.freshness < 4/10)) ∧
    ((processScores s).flagged = true → jTruthy s.flag_reason = false →
      (processScores s).flag_reason = some (.str (pyJoin "; "
        ((EVAL_THRESHOLDS.filter (fun p => decide (clampedValue s p.1 < p.2))).map
          (fun p => reasonString p.1 (clampedValue s p.1) p.2))))) := by
  constructor
  · show (!(EVAL_THRESHOLDS.filter _).isEmpty) = true ↔ _
    rw [Bool.not_eq_true', filter_isEmpty_eq_false_iff]
    simp only [EVAL_THRESHOLDS, List.mem_cons, List.not_mem_nil, or_false,
      metricValue, clampedValue]
    constructor
    · rintro ⟨x, hx, hpx⟩
      rcases hx with rfl | rfl | rfl | rfl | rfl <;> simp_all [decide_eq_true_iff]
    · rintro (h | h | h | h | h)
      · exact ⟨("relevance", 6/10), by simp, by simp [h]⟩
      · exact ⟨("evidence_coverage", 5/10), by simp, by simp [h]⟩
      · exact ⟨("hallucination_risk", 4/10), by simp, by simp [h]⟩
      · exact ⟨("actionability", 5/10), by simp, by simp [h]⟩
      · exact ⟨("freshness", 4/10), by simp, by simp [h]⟩
  · intro hf ht
    show (if _ = true ∧ _ = false then _ else _) = _
    rw [if_pos ⟨hf, ht⟩]
    simp only [clampedValue]

/-- The spec's gate example: hallucination_risk = 0.35, everything else
well above threshold, no scorer-supplied reason. -/
def c1HallucinationScores : ScoresDict :=
  { relevance := some (.num 1), evidence_coverage := some (.num 1),
    hallucination_risk := some (.num (35/100)), actionability := some (.num 1),
    freshness := some (.num 1) }

/-- C1 witness: hallucination_risk = 0.35 < 0.4 flags the result and the
synthesized reason names `hallucination_risk` with its value and
threshold. -/
theorem processScores_flag_spec_witness :
    (processScores c1HallucinationScores).flagged = true ∧
    (processScores c1HallucinationScores).flag_reason
      = some (.str "hallucination_risk (0.35) below threshold (0.4)") := by
  have h1 : (processScores c1HallucinationScores).flagged = true :=
    (processScores_flag_spec c1HallucinationScores).1.mpr (by decide)
  have h2 := (processScores_flag_spec c1HallucinationScores).2 h1 (by decide)
  exact ⟨h1, h2.trans (by decide)⟩

/- ### C5 / C6 helpers -/

/-- `chunk_text` never returns an empty chunk list. -/
theorem chunk_text_ne_nil (t : String) : chunk_text t ≠ [] := by
  unfold chunk_text
  by_cases hle : (pySplit t).length ≤ CHUNK_SIZE
  · simp [hle]
  · have h0 : 0 < (pySplit t).length := by simp only [CHUNK_SIZE] at hle; omega
    rw [if_neg hle, chunkFrom, dif_pos h0]
    simp

/- ### C5: summary of a run with one failed URL and one good raw text -/

/-- C5 counterexample input: one URL whose fetch raises, one accepted
25-character raw text, and an extraction call that returns no insights. -/
def c5Input : IngestInput :=
  { compExists := true
    urlFetches := [⟨"https://x.example/a", .error "HTTP 403 fetching https://x.example/a"⟩]
    rawTexts := ["This text has 25 chars OK"]
    extraction := .ok []
    rawThemes := [] }

/-- C5 counterexample: with zero insights extracted from the surviving
text, the claim requires status `"warning"`, but `ingest_sources` reports
`"success"` unconditionally once any chunk survived. -/
theorem ingest_no_insights_still_success :
    (ingest_sources c5Input "manual" (fun s => s)).insights_extracted = 0 ∧
    (ingest_sources c5Input "manual" (fun s => s)).status = "success" ∧
    (ingest_sources c5Input "manual" (fun s => s)).status ≠ "warning" := by
  refine ⟨by decide, by decide, by decide⟩

/-- C5 (amended): for a run over one URL that fails to fetch and one raw
text whose stripped length is ≥ 20 (e.g. 25 characters), the summary has
`sources_created = 1` and a non-empty message listing the failed URL with
its error; the status is `"success"` regardless of whether any insight was
extracted (a `"warning"` status only arises when no chunk at all
survived and there were no errors). -/
theorem ingest_one_failed_url_one_text (url err raw : String)
    (extraction : Except String (List RawInsight)) (rawThemes : List RawTheme)
    (redact : String → String) (hlen : 20 ≤ (pyStrip raw).length) :
    (ingest_sources ⟨true, [⟨url, .error err⟩], [raw], extraction, rawThemes⟩
        "manual" redact).sources_created = 1 ∧
    (ingest_sources ⟨true, [⟨url, .error err⟩], [raw], extraction, rawThemes⟩
        "manual" redact).status = "success" ∧
    (ingest_sources ⟨true, [⟨url, .error err⟩], [raw], extraction, rawThemes⟩
        "manual" redact).message
      = "Pipeline complete. " ++ ("URL " ++ url ++ ": " ++ pyTake 200 err) ∧
    (ingest_sources ⟨true, [⟨url, .error err⟩], [raw], extraction, rawThemes⟩
        "manual" redact).message ≠ "" := by
  have hparse : parse_raw_text raw = .ok (pyStrip raw, "manual") := by
    unfold parse_raw_text
    rw [if_neg (by omega)]
  obtain ⟨c, cs, hcc⟩ :=
    List.exists_cons_of_ne_nil (chunk_text_ne_nil (redact (pyStrip raw)))
  have h3 : (ingest_sources ⟨true, [⟨url, .error err⟩], [raw], extraction, rawThemes⟩
      "manual" redact).message
      = "Pipeline complete. " ++ ("URL " ++ url ++ ": " ++ pyTake 200 err) := by
    simp [ingest_sources, urlChunksOf, rawChunksOf, hparse, hcc, ingestErrors, pyJoin]
  refine ⟨?_, ?_, h3, ?_⟩
  · simp [ingest_sources, urlChunksOf, rawChunksOf, hparse, hcc, ingestErrors,
      Except.isOk, Except.toBool]
  · simp [ingest_sources, urlChunksOf, rawChunksOf, hparse, hcc, ingestErrors]
  · rw [h3]
    intro hmsg
    have hlen2 := congrArg String.length hmsg
    rw [String.length_append] at hlen2
    have h19 : ("Pipeline complete. ").length = 19 := by decide
    have h0 : ("" : String).length = 0 := by decide
    omega

/-- C5 witness: the amended summary at a concrete failing URL and a
concrete 25-character raw text. -/
theorem ingest_one_failed_url_one_text_witness :
    (ingest_sources ⟨true, [⟨"https://x.example/a", .error "HTTP 403"⟩],
        ["This text has 25 chars OK"], .ok [], []⟩ "manual"
        (fun s => s)).sources_created = 1 ∧
    (ingest_sources ⟨true, [⟨"https://x.example/a", .error "HTTP 403"⟩],
        ["This text has 25 chars OK"], .ok [], []⟩ "manual"
        (fun s => s)).status = "success" :=
  ⟨(ingest_one_failed_url_one_text "https://x.example/a" "HTTP 403"
      "This text has 25 chars OK" (.ok []) [] (fun s => s) (by decide)).1,
   (ingest_one_failed_url_one_text "https://x.example/a" "HTTP 403"
      "This text has 25 chars OK" (.ok []) [] (fun s => s) (by decide)).2.1⟩

/- ### C6: theme frequency and membership are scorer-supplied, not derived -/

/-- C6 counterexample input: the clusterer returns one theme claiming
`frequency = 5` but listing a single member index, over two extracted
insights. -/
def c6Input : IngestInput :=
  { compExists := true
    urlFetches := []
    rawTexts := ["This text has 25 chars OK"]
    extraction := .ok [{ text := some "insight A" }, { text := some "insight B" }]
    rawThemes := [{ name := some "Pricing complaints", frequency := some 5,
                    insight_indices := [0] }] }

/-- C6 counterexample: the persisted theme's `frequency` is 5 while
exactly one `ThemeInsight` join row (for index 0) was created, and the
second persisted insight (index 1) belongs to no theme — refuting both
halves of the claim on one concrete run. -/
theorem ingest_theme_frequency_mismatch :
    (ingest_sources c6Input "manual" (fun s => s)).insights_extracted = 2 ∧
    ((ingest_sources c6Input "manual" (fun s => s)).themes.map
      (fun p => (p.1.frequency, p.2))) = [(5, [0])] := by
  refine ⟨by decide, by decide⟩

/-- C6 (amended): the orchestrator persists one `Theme` row per returned
draft, taking `frequency` verbatim from the scorer-supplied value
(default 1) without recomputing it from the created join rows; the join
rows are exactly the in-range `insight_indices` (in order, duplicates
kept), so every join row points at a persisted insight, but neither
`frequency = number of join rows` nor membership of every insight in some
theme is enforced. -/
theorem ingest_themes_trust_scorer (inp : IngestInput) (st : String)
    (redact : String → String) (hc : inp.compExists = true)
    (hch : (inp.urlFetches.map (urlChunksOf redact)).flatten
        ++ (inp.rawTexts.map (rawChunksOf redact)).flatten ≠ []) :
    (ingest_sources inp st redact).themes
      = inp.rawThemes.map (fun rt =>
          (buildTheme rt, linksOf (extract_insights [inp.extraction]).length rt)) ∧
    (∀ rt ∈ inp.rawThemes, (buildTheme rt).frequency = rt.frequency.getD 1) ∧
    (∀ rt ∈ inp.rawThemes,
      ∀ j ∈ linksOf (extract_insights [inp.extraction]).length rt,
        j < (extract_insights [inp.extraction]).length) := by
  refine ⟨?_, fun rt _ => rfl, fun rt _ j hj => ?_⟩
  · obtain ⟨x, xs, hxx⟩ := List.exists_cons_of_ne_nil hch
    simp [ingest_sources, hc, hxx, persistThemes]
  · simp only [linksOf, List.mem_filterMap] at hj
    obtain ⟨idx, hmem, hif⟩ := hj
    split at hif
    · rename_i hcond
      cases hif
      omega
    · cases hif

/-- C6 witness: the amended theme-persistence description at the concrete
counterexample input. -/
theorem ingest_themes_trust_scorer_witness :
    (ingest_sources c6Input "manual" (fun s => s)).themes
      = c6Input.rawThemes.map (fun rt =>
          (buildTheme rt, linksOf (extract_insights [c6Input.extraction]).length rt)) :=
  (ingest_themes_trust_scorer c6Input "manual" (fun s => s) (by decide) (by decide)).1

/- ### C7: deduplication keeps the first occurrence per key, in order -/

/-- The dedup loop output is a sublist of its input (order preserved, no
reordering, no invention). -/
theorem dedupAux_sublist (seen : List String) (l : List RawInsight) :
    (dedupAux seen l).Sublist l := by
  induction l generalizing seen with
  | nil => simp [dedupAux]
  | cons x xs ih =>
    by_cases hx : dedupKey x ∈ seen
    · simp only [dedupAux, if_pos hx]
      exact (ih seen).trans (List.sublist_cons_self x xs)
    · simp only [dedupAux, if_neg hx]
      exact (ih (dedupKey x :: seen)).cons₂ x

/-- The dedup loop output has pairwise-distinct keys, none of them in
`seen`. -/
theorem dedupAux_keys_nodup (seen : List String) (l : List RawInsight) :
    ((dedupAux seen l).map dedupKey).Nodup ∧
    ∀ k ∈ (dedupAux seen l).map dedupKey, k ∉ seen := by
  induction l generalizing seen with
  | nil => simp [dedupAux]
  | cons x xs ih =>
    by_cases hx : dedupKey x ∈ seen
    · simpa [dedupAux, if_pos hx] using ih seen
    · obtain ⟨ihn, ihs⟩ := ih (dedupKey x :: seen)
      simp only [dedupAux, if_neg hx, List.map_cons, List.nodup_cons, List.mem_cons]
      refine ⟨⟨fun hk => ?_, ihn⟩, fun k hk => ?_⟩
      · exact (ihs _ hk) (List.mem_cons_self _ _)
      · rcases hk with rfl | hk
        · exact hx
        · exact fun hks => (ihs _ hk) (List.mem_cons_of_mem _ hks)

/-- Every input key survives dedup (or was already seen). -/
theorem dedupAux_covers (seen : List String) (l : List RawInsight) :
    ∀ x ∈ l, dedupKey x ∈ seen ∨ dedupKey x ∈ (dedupAux seen l).map dedupKey := by
  induction l generalizing seen with
  | nil => simp
  | cons y ys ih =>
    intro x hx
    by_cases hy : dedupKey y ∈ seen
    · rcases List.mem_cons.1 hx with rfl | hx
      · exact Or.inl hy
      · simpa [dedupAux, if_pos hy] using ih seen x hx
    · simp only [dedupAux, if_neg hy, List.map_cons, List.mem_cons]
      rcases List.mem_cons.1 hx with rfl | hx
      · exact Or.inr (Or.inl rfl)
      · rcases ih (dedupKey y :: seen) x hx with h | h
        · rcases List.mem_cons.1 h with he | hs
          · exact Or.inr (Or.inl he)
          · exact Or.inl hs
        · exact Or.inr (Or.inr h)

/-- Every kept element is the first element of the input with its key. -/
theorem dedupAux_first (seen : List String) (l : List RawInsight) :
    ∀ x ∈ dedupAux seen l, dedupKey x ∉ seen ∧
      l.find? (fun y => dedupKey y == dedupKey x) = some x := by
  induction l generalizing seen with
  | nil => simp [dedupAux]
  | cons y ys ih =>
    intro x hx
    by_cases hy : dedupKey y ∈ seen
    · rw [dedupAux, if_pos hy] at hx
      obtain ⟨hns, hfind⟩ := ih seen x hx
      refine ⟨hns, ?_⟩
      rw [List.find?_cons]
      have hne : (dedupKey y == dedupKey x) = false := by
        rw [beq_eq_false_iff_ne]
        rintro he
        exact hns (he ▸ hy)
      rw [hne]
      exact hfind
    · rw [dedupAux, if_neg hy] at hx
      rcases List.mem_cons.1 hx with rfl | hx
      · refine ⟨hy, ?_⟩
        rw [List.find?_cons]
        simp
      · obtain ⟨hns, hfind⟩ := ih (dedupKey y :: seen) x hx
        have hne : dedupKey y ≠ dedupKey x := by
          intro he
          exact hns (he ▸ List.mem_cons_self _ _)
        refine ⟨fun hs => hns (List.mem_cons_of_mem _ hs), ?_⟩
        rw [List.find?_cons]
        have : (dedupKey y == dedupKey x) = false := beq_eq_false_iff_ne.2 hne
        rw [this]
        exact hfind

/-- C7: `extract_insights` deduplicates the collected drafts by the
lower-cased, trimmed first-80-character prefix of the insight text
(`dedupKey`): the output is a sublist of the collected drafts (order of
first occurrences preserved), its keys are pairwise distinct (so of any
two drafts with equal keys only one survives), every collected draft's key
is still represented, and every surviving draft is the *first* draft in
collection order bearing its key. -/
theorem extract_insights_dedup (chunkResults : List (Except String (List RawInsight))) :
    (extract_insights chunkResults).Sublist (collectInsights chunkResults) ∧
    ((extract_insights chunkResults).map dedupKey).Nodup ∧
    (∀ x ∈ collectInsights chunkResults,
      dedupKey x ∈ (extract_insights chunkResults).map dedupKey) ∧
    (∀ x ∈ extract_insights chunkResults,
      (collectInsights chunkResults).find? (fun y => dedupKey y == dedupKey x)
        = some x) := by
  refine ⟨dedupAux_sublist [] _, (dedupAux_keys_nodup [] _).1, fun x hx => ?_,
    fun x hx => (dedupAux_first [] _ x hx).2⟩
  rcases dedupAux_covers [] (collectInsights chunkResults) x hx with h | h
  · cases h
  · exact h

/-- C7 witness drafts: two drafts whose keys agree after slicing,
lower-casing and trimming, plus a distinct third. -/
def c7Crs : List (Except String (List RawInsight)) :=
  [.ok [{ text := some "Alpha" }, { text := some " ALPHA", quote := some "dup" }],
   .error "chunk 1 failed",
   .ok [{ text := some "Beta" }]]

/-- C7 witness: in the concrete run, the duplicate-keyed second draft is
gone, its key is still represented, and the first occurrence is the one
`find?` locates. -/
theorem extract_insights_dedup_witness :
    dedupKey { text := some " ALPHA", quote := some "dup" : RawInsight }
      ∈ (extract_insights c7Crs).map dedupKey ∧
    ((extract_insights c7Crs).find?
      (fun y => dedupKey y == dedupKey { text := some "Alpha" : RawInsight }))
      = some { text := some "Alpha" : RawInsight } ∧
    (collectInsights c7Crs).find?
      (fun y => dedupKey y == dedupKey { text := some "Alpha" : RawInsight })
      = some { text := some "Alpha" : RawInsight } :=
  ⟨(extract_insights_dedup c7Crs).2.2.1 _ (by decide), by decide,
   (extract_insights_dedup c7Crs).2.2.2 { text := some "Alpha" } (by decide)⟩

/- ### C4: chunking — round-trip between words and chunks -/

/-- Every word produced by the split worker is non-empty and contains no
whitespace (given the in-progress word does not). -/
theorem pySplitGo_words_ok (l : List Char) :
    ∀ cur, (∀ c ∈ cur, pyIsSpace c = false) →
      ∀ w ∈ pySplitGo l cur, w.data ≠ [] ∧ ∀ c ∈ w.data, pyIsSpace c = false := by
  induction l with
  | nil =>
    intro cur hcur w hw
    by_cases hc : cur.isEmpty
    · simp [pySplitGo, hc] at hw
    · rw [pySplitGo, if_neg hc] at hw
      rcases List.mem_singleton.1 hw with rfl
      refine ⟨by simpa [List.isEmpty_iff] using hc, fun c hcmem => ?_⟩
      exact hcur c (by simpa using hcmem)
  | cons a rest ih =>
    intro cur hcur w hw
    rw [pySplitGo] at hw
    by_cases ha : pyIsSpace a
    · rw [if_pos ha] at hw
      by_cases hc : cur.isEmpty
      · rw [if_pos hc] at hw
        exact ih [] (by simp) w hw
      · rw [if_neg hc] at hw
        rcases List.mem_cons.1 hw with rfl | hw
        · refine ⟨by simpa [List.isEmpty_iff] using hc, fun c hcmem => ?_⟩
          exact hcur c (by simpa using hcmem)
        · exact ih [] (by simp) w hw
    · rw [if_neg ha] at hw
      refine ih (a :: cur) ?_ w hw
      intro c hc
      rcases List.mem_cons.1 hc with rfl | hc
      · simpa using ha
      · exact hcur c hc

/-- The words of `pySplit` are non-empty and whitespace-free. -/
theorem pySplit_words_ok (s : String) :
    ∀ w ∈ pySplit s, w.data ≠ [] ∧ ∀ c ∈ w.data, pyIsSpace c = false :=
  pySplitGo_words_ok s.data [] (by simp)

/-- Scanning a whitespace-free prefix just accumulates it (reversed). -/
theorem pySplitGo_nonspace_prefix (cs : List Char) :
    ∀ rest cur, (∀ c ∈ cs, pyIsSpace c = false) →
      pySplitGo (cs ++ rest) cur = pySplitGo rest (cs.reverse ++ cur) := by
  induction cs with
  | nil => intro rest cur _; simp
  | cons a as ih =>
    intro rest cur hok
    have ha : pyIsSpace a = false := hok a (List.mem_cons_self _ _)
    rw [List.cons_append, pySplitGo, if_neg (by simp [ha])]
    rw [ih rest (a :: cur) (fun c hc => hok c (List.mem_cons_of_mem _ hc))]
    simp

/-- Scanning a space with a non-empty current word emits the word. -/
theorem pySplitGo_space_cons (rest : List Char) (cur : List Char) (h : cur ≠ []) :
    pySplitGo (' ' :: rest) cur = String.mk cur.reverse :: pySplitGo rest [] := by
  rw [pySplitGo, if_pos (by decide), if_neg (by simpa [List.isEmpty_iff] using h)]

/-- Round trip: splitting a space-join of non-empty, whitespace-free words
recovers exactly those words (Python `" ".join(ws).split() == ws`). -/
theorem pySplit_pyJoin (ws : List String)
    (hok : ∀ w ∈ ws, w.data ≠ [] ∧ ∀ c ∈ w.data, pyIsSpace c = false) :
    pySplit (pyJoin " " ws) = ws := by
  induction ws with
  | nil => rfl
  | cons x ys ih =>
    obtain ⟨hx, hxok⟩ := hok x (List.mem_cons_self _ _)
    cases ys with
    | nil =>
      show pySplitGo x.data [] = [x]
      have hpre := pySplitGo_nonspace_prefix x.data [] [] hxok
      rw [List.append_nil] at hpre
      rw [hpre, List.append_nil, pySplitGo,
        if_neg (by simpa [List.isEmpty_iff] using
          (by simpa using hx : x.data.reverse ≠ []))]
      rw [List.reverse_reverse]
    | cons y zs =>
      have hdata : (pyJoin " " (x :: y :: zs)).data
          = x.data ++ (' ' :: (pyJoin " " (y :: zs)).data) := by
        show (x ++ " " ++ pyJoin " " (y :: zs)).data = _
        simp [String.data_append]
      show pySplit (pyJoin " " (x :: y :: zs)) = x :: y :: zs
      unfold pySplit
      rw [hdata, pySplitGo_nonspace_prefix x.data _ [] hxok,
        pySplitGo_space_cons _ _ (by simpa using hx)]
      rw [List.append_nil, List.reverse_reverse]
      have : String.mk x.data = x := rfl
      rw [this]
      exact congrArg (x :: ·) (ih (fun w hw => hok w (List.mem_cons_of_mem _ hw)))

/-- Unfolding `chunkFrom` past the end of the word list. -/
theorem chunkFrom_nil (ws : List String) (start : Nat) (h : ws.length ≤ start) :
    chunkFrom ws start = [] := by
  rw [chunkFrom, dif_neg (by omega)]

/-- Unfolding one `while` iteration of `chunkFrom`. -/
theorem chunkFrom_cons (ws : List String) (start : Nat) (h : start < ws.length) :
    chunkFrom ws start = (ws.drop start).take 800 :: chunkFrom ws (start + 700) := by
  rw [chunkFrom, dif_pos h]
  rfl

/-- Every window has at most 800 words, is non-empty, and draws its words
from the input word list. -/
theorem chunkFrom_windows (ws : List String) :
    ∀ n start, ws.length - start ≤ n →
      ∀ w ∈ chunkFrom ws start, w.length ≤ 800 ∧ w ≠ [] ∧ ∀ x ∈ w, x ∈ ws := by
  intro n
  induction n with
  | zero =>
    intro start hle w hw
    rw [chunkFrom_nil ws start (by omega)] at hw
    cases hw
  | succ n ih =>
    intro start hle w hw
    by_cases hlt : start < ws.length
    · rw [chunkFrom_cons ws start hlt] at hw
      rcases List.mem_cons.1 hw with rfl | hw
      · refine ⟨by simpa using Nat.min_le_left 800 _, ?_, fun x hx =>
          List.mem_of_mem_drop (List.mem_of_mem_take hx)⟩
        have hlen : ((ws.drop start).take 800).length = min 800 (ws.length - start) := by
          simp [List.length_take]
        intro hnil
        rw [hnil] at hlen
        simp at hlen
        omega
      · exact ih (start + 700) (by omega) w hw
    · rw [chunkFrom_nil ws start (by omega)] at hw
      cases hw

/-- Index characterisation: the `i`-th chunk window starts at word
`700 * i`. -/
theorem chunkFrom_get (ws : List String) :
    ∀ i start (h : i < (chunkFrom ws start).length),
      (chunkFrom ws start).get ⟨i, h⟩ = (ws.drop (start + 700 * i)).take 800 := by
  intro i
  induction i with
  | zero =>
    intro start h
    by_cases hlt : start < ws.length
    · rw [List.get_of_eq (chunkFrom_cons ws start hlt)]
      simp
    · rw [chunkFrom_nil ws start (by omega)] at h
      simp at h
  | succ k ih =>
    intro start h
    by_cases hlt : start < ws.length
    · have hlen : k + 1 < ((ws.drop start).take 800 :: chunkFrom ws (start + 700)).length := by
        rw [← chunkFrom_cons ws start hlt]
        exact h
      rw [List.get_of_eq (chunkFrom_cons ws start hlt)]
      have : (((ws.drop start).take 800 :: chunkFrom ws (start + 700)).get ⟨k + 1, hlen⟩)
          = (chunkFrom ws (start + 700)).get ⟨k, by simpa using hlen⟩ := rfl
      rw [this, ih (start + 700) (by simpa using hlen)]
      have harith : start + 700 + 700 * k = start + 700 * (k + 1) := by ring
      rw [harith]
    · rw [chunkFrom_nil ws start (by omega)] at h
      simp at h
  
/-- A chunk window at index `i` exists only while `700 * i` is inside the
word list. -/
theorem chunkFrom_length_lt (ws : List String) :
    ∀ i start, i < (chunkFrom ws start).length → start + 700 * i < ws.length := by
  intro i
  induction i with
  | zero =>
    intro start h
    by_cases hlt : start < ws.length
    · omega
    · rw [chunkFrom_nil ws start (by omega)] at h
      simp at h
  | succ k ih =>
    intro start h
    by_cases hlt : start < ws.length
    · rw [chunkFrom_cons ws start hlt] at h
      simp only [List.length_cons] at h
      have := ih (start + 700) (by omega)
      omega
    · rw [chunkFrom_nil ws start (by omega)] at h
      simp at h

/-- Dropping the 100-word overlap from every window and concatenating
recovers the word list from offset `start + 100` on. -/
theorem chunkFrom_tail_join (ws : List String) :
    ∀ n start, ws.length - start ≤ n →
      ((chunkFrom ws start).map (fun w => w.drop 100)).flatten
        = ws.drop (start + 100) := by
  intro n
  induction n with
  | zero =>
    intro start hle
    rw [chunkFrom_nil ws start (by omega)]
    rw [List.drop_eq_nil_of_le (by omega)]
    rfl
  | succ n ih =>
    intro start hle
    by_cases hlt : start < ws.length
    · rw [chunkFrom_cons ws start hlt]
      rw [List.map_cons, List.flatten_cons, ih (start + 700) (by omega)]
      rw [List.drop_take, List.drop_drop]
      have h2 : start + 700 + 100 = start + 100 + 700 := by ring
      have h3 : (800 : Nat) - 100 = 700 := by norm_num
      rw [h2, h3]
      have h4 : ws.drop (start + 100 + 700) = (ws.drop (start + 100)).drop 700 := by
        rw [List.drop_drop]
      rw [h4]
      exact List.take_append_drop 700 (ws.drop (start + 100))
    · rw [chunkFrom_nil ws start (by omega)]
      rw [List.drop_eq_nil_of_le (by omega)]
      rfl

/-- The word sequences of the chunks, first kept whole, 100-word overlap
removed from each subsequent one, concatenated (`chunkConcatWords`). -/
def chunkConcatWords (cs : List (List String)) : List String :=
  match cs with
  | [] => []
  | c :: rest => c ++ (rest.map (fun w => w.drop 100)).flatten

/-- Reconstruction: the windows of one chunking pass reassemble the whole
word list. -/
theorem chunkFrom_reconstruct (ws : List String) (h0 : 0 < ws.length) :
    chunkConcatWords (chunkFrom ws 0) = ws := by
  rw [chunkFrom_cons ws 0 h0]
  show (ws.drop 0).take 800 ++ ((chunkFrom ws (0 + 700)).map (fun w => w.drop 100)).flatten = ws
  rw [chunkFrom_tail_join ws (ws.length) (0 + 700) (by omega)]
  rw [List.drop_zero]
  have : (0 : Nat) + 700 + 100 = 800 := by norm_num
  rw [this]
  exact List.take_append_drop 800 ws

/-- `chunk_text` on a text of at most 800 words. -/
theorem chunk_text_of_le (t : String) (h : (pySplit t).length ≤ 800) :
    chunk_text t = [t] := by
  show (if (pySplit t).length ≤ 800 then [t]
    else ((chunkFrom (pySplit t) 0).map (pyJoin " "))) = [t]
  rw [if_pos h]

/-- `chunk_text` on a text of more than 800 words. -/
theorem chunk_text_of_gt (t : String) (h : 800 < (pySplit t).length) :
    chunk_text t = (chunkFrom (pySplit t) 0).map (pyJoin " ") := by
  show (if (pySplit t).length ≤ 800 then [t]
    else ((chunkFrom (pySplit t) 0).map (pyJoin " "))) = _
  rw [if_neg (by omega)]

/-- C4 (amended): `chunk_text` returns the input text as a single chunk
when it has at most 800 words; for longer texts every chunk has at most
800 words, chunk `i` starts at word offset `700·i`, so dropping the
100-word overlap from every chunk after the first reconstructs the
original word sequence, and consecutive chunks overlap by exactly
`min(100, word count of the later chunk)` words — exactly 100 except that
the final chunk may be shorter than 100 words and then overlaps by its
whole length; and chunking is deterministic. -/
theorem chunk_text_spec (t : String) :
    ((pySplit t).length ≤ 800 → chunk_text t = [t]) ∧
    (800 < (pySplit t).length →
      (∀ c ∈ chunk_text t, (pySplit c).length ≤ 800) ∧
      chunkConcatWords ((chunk_text t).map pySplit) = pySplit t ∧
      (∀ i (h1 : i < (chunk_text t).length) (h2 : i + 1 < (chunk_text t).length),
        (pySplit ((chunk_text t).get ⟨i + 1, h2⟩)).take 100
          = (pySplit ((chunk_text t).get ⟨i, h1⟩)).drop
              ((pySplit ((chunk_text t).get ⟨i, h1⟩)).length
                - min 100 (pySplit ((chunk_text t).get ⟨i + 1, h2⟩)).length))) ∧
    (∀ t2 : String, t = t2 → chunk_text t = chunk_text t2) := by
  refine ⟨fun hle => ?_, fun hgt => ?_, fun t2 ht => ht ▸ rfl⟩
  · exact chunk_text_of_le t hle
  · have hch : chunk_text t = (chunkFrom (pySplit t) 0).map (pyJoin " ") :=
      chunk_text_of_gt t hgt
    have hwin : ∀ w ∈ chunkFrom (pySplit t) 0, pySplit (pyJoin " " w) = w := by
      intro w hw
      obtain ⟨hlen, hnil, hmem⟩ :=
        chunkFrom_windows (pySplit t) (pySplit t).length 0 (by omega) w hw
      exact pySplit_pyJoin w (fun x hx => pySplit_words_ok t x (hmem x hx))
    refine ⟨?_, ?_, ?_⟩
    · intro c hc
      rw [hch] at hc
      obtain ⟨w, hw, rfl⟩ := List.mem_map.1 hc
      rw [hwin w hw]
      exact (chunkFrom_windows (pySplit t) (pySplit t).length 0 (by omega) w hw).1
    · rw [hch, List.map_map]
      have h1 : (chunkFrom (pySplit t) 0).map (pySplit ∘ pyJoin " ")
          = (chunkFrom (pySplit t) 0).map id :=
        List.map_congr_left (fun w hw => by simpa using hwin w hw)
      rw [h1, List.map_id]
      exact chunkFrom_reconstruct (pySplit t) (by omega)
    · intro i h1 h2
      have hi : i < (chunkFrom (pySplit t) 0).length := by
        have hx := h1
        rw [hch] at hx
        simpa using hx
      have hi1 : i + 1 < (chunkFrom (pySplit t) 0).length := by
        have hx := h2
        rw [hch] at hx
        simpa using hx
      have hwlt := chunkFrom_length_lt (pySplit t) (i + 1) 0 hi1
      have egen : ∀ j (hj : j < (chunk_text t).length)
          (hj2 : j < (chunkFrom (pySplit t) 0).length),
          pySplit ((chunk_text t).get ⟨j, hj⟩)
            = ((pySplit t).drop (0 + 700 * j)).take 800 := by
        intro j hj hj2
        have hmem : (chunkFrom (pySplit t) 0).get ⟨j, hj2⟩ ∈ chunkFrom (pySplit t) 0 :=
          List.get_mem _ _ _
        have hjoin : (chunk_text t).get ⟨j, hj⟩
            = pyJoin " " ((chunkFrom (pySplit t) 0).get ⟨j, hj2⟩) := by
          rw [List.get_of_eq hch ⟨j, hj⟩]
          simp [List.get_eq_getElem, List.getElem_map]
        rw [hjoin, hwin _ hmem, chunkFrom_get]
      rw [egen i h1 hi, egen (i + 1) h2 hi1]
      have harr : ((((pySplit t).drop (0 + 700 * i)).take 800).length
            - min 100 ((((pySplit t).drop (0 + 700 * (i + 1))).take 800).length)) = 700 := by
        simp only [List.length_take, List.length_drop]
        omega
      rw [harr, List.take_take, List.drop_take, List.drop_drop]
      norm_num
      have hidx : 700 * (i + 1) = 700 * i + 700 := by ring
      rw [hidx]

/-- "Chunks `c` then `d` overlap by exactly 100 words": the first 100
words of `d` are the last 100 words of `c`. -/
def overlapsBy100 (c d : String) : Prop :=
  (pySplit d).take 100 = (pySplit c).drop ((pySplit c).length - 100)

/-- Every pair of consecutive chunks overlaps by exactly 100 words. -/
def consecOverlap100 : List String → Prop
  | c :: d :: rest => overlapsBy100 c d ∧ consecOverlap100 (d :: rest)
  | _ => True

set_option maxRecDepth 2000 in
set_option linter.constructorNameAsVariable false in
/-- C4 counterexample: a 1401-word text (> 800 words) whose final chunk
has a single word; the final chunk overlaps its predecessor by only 1
word, so "consecutive chunks overlap by exactly 100 words" fails. -/
theorem chunk_overlap_counterexample :
    800 < (pySplit (pyJoin " " (List.replicate 1401 "w"))).length ∧
    ¬ consecOverlap100 (chunk_text (pyJoin " " (List.replicate 1401 "w"))) := by
  have hsp : ∀ n : Nat, pySplit (pyJoin " " (List.replicate n "w"))
      = List.replicate n "w" := by
    intro n
    refine pySplit_pyJoin _ (fun w hw => ?_)
    rw [List.eq_of_mem_replicate hw]
    exact ⟨by decide, by decide⟩
  have hlen : (pySplit (pyJoin " " (List.replicate 1401 "w"))).length = 1401 := by
    rw [hsp 1401, List.length_replicate]
  refine ⟨by omega, fun hcon => ?_⟩
  have hchunk : chunk_text (pyJoin " " (List.replicate 1401 "w"))
      = (chunkFrom (pySplit (pyJoin " " (List.replicate 1401 "w"))) 0).map (pyJoin " ") :=
    chunk_text_of_gt _ (by omega)
  have hcf : chunkFrom (pySplit (pyJoin " " (List.replicate 1401 "w"))) 0
      = [List.replicate 800 "w", List.replicate 701 "w", List.replicate 1 "w"] := by
    rw [hsp 1401]
    rw [chunkFrom_cons _ 0 (by rw [List.length_replicate]; omega)]
    rw [Nat.zero_add]
    rw [chunkFrom_cons _ 700 (by rw [List.length_replicate]; omega)]
    rw [show (700 : Nat) + 700 = 1400 from rfl]
    rw [chunkFrom_cons _ 1400 (by rw [List.length_replicate]; omega)]
    rw [show (1400 : Nat) + 700 = 2100 from rfl]
    rw [chunkFrom_nil _ 2100 (by rw [List.length_replicate]; omega)]
    simp only [List.drop_replicate, List.take_replicate]
    rfl
  rw [hchunk, hcf] at hcon
  obtain ⟨h01, h12, -⟩ := hcon
  unfold overlapsBy100 at h12
  rw [hsp 701, hsp 1] at h12
  have hlen12 := congrArg List.length h12
  simp only [List.length_take, List.length_drop, List.length_replicate] at hlen12
  omega

/-- C4 witness: a two-word text is returned as one chunk equal to the
input. -/
theorem chunk_text_spec_witness : chunk_text "hello world" = ["hello world"] :=
  (chunk_text_spec "hello world").1 (by decide)

/- ### C8: PII redaction precedes persistence and prompting -/

/-- The texts delivered by the fetch/parse collaborators in one
`ingest_sources` run (the run's first-party extracted texts). -/
def extractedTextsIngest (inp : IngestInput) : List String :=
  inp.urlFetches.filterMap (fun uf => match uf.outcome with
    | .ok (t, _) => some t
    | .error _ => none)
  ++ inp.rawTexts.filterMap (fun raw => match parse_raw_text raw with
    | .ok (t, _) => some t
    | .error _ => none)

/-- The texts delivered by `fetch_research_results` in one
`research_and_ingest` run (page extractions and snippet fallbacks). -/
def fetchedTexts (inp : ResearchInput) : List String :=
  match inp.searchOutcome with
  | .ok pairs => (fetch_research_results pairs 5).map (fun f => f.1)
  | .error _ => []

/-- The search results of one `research_and_ingest` run. -/
def researchResults (inp : ResearchInput) : List SearchResult :=
  match inp.searchOutcome with
  | .ok pairs => pairs.map Prod.fst
  | .error _ => []

/-- Shape of one `ingest_sources` run: the persisted source rows and the
chunk list are the per-item maps. -/
theorem ingest_sources_shape (inp : IngestInput) (st : String)
    (redact : String → String) (hc : inp.compExists = true) :
    (ingest_sources inp st redact).sources
      = inp.urlFetches.map (urlSourceRow st redact)
        ++ inp.rawTexts.map (rawSourceRow redact) ∧
    (ingest_sources inp st redact).allChunks
      = (inp.urlFetches.map (urlChunksOf redact)).flatten
        ++ (inp.rawTexts.map (rawChunksOf redact)).flatten := by
  unfold ingest_sources
  rw [if_neg (by simp [hc])]
  dsimp only
  constructor <;> (split <;> rfl)

/-- Shape of one `ingest_sources` run with a missing competitor. -/
theorem ingest_sources_shape_nf (inp : IngestInput) (st : String)
    (redact : String → String) (hc : inp.compExists = false) :
    (ingest_sources inp st redact).sources = [] ∧
    (ingest_sources inp st redact).allChunks = [] := by
  unfold ingest_sources
  rw [if_pos (by simp [hc])]
  exact ⟨rfl, rfl⟩

/-- Shape of one `ingest_pdf` run. -/
theorem ingest_pdf_shape (inp : PdfInput) (redact : String → String) :
    ((ingest_pdf inp redact).sources = [] ∧ (ingest_pdf inp redact).allChunks = []) ∨
    (∃ e, inp.pdfOutcome = .error e ∧
      (ingest_pdf inp redact).sources
        = [{ url := none, source_type := "pdf", status := "failed",
             raw_content := none, error_message := some (pyTake 500 e) }] ∧
      (ingest_pdf inp redact).allChunks = []) ∨
    (∃ t0, inp.pdfOutcome = .ok t0 ∧
      (ingest_pdf inp redact).sources
        = [{ url := none, source_type := "pdf", status := "done",
             raw_content := some (pyTake 10000 (redact t0)), error_message := none }] ∧
      (ingest_pdf inp redact).allChunks
        = (chunk_text (redact t0)).map (fun c => (c, "pdf:" ++ inp.filename))) := by
  unfold ingest_pdf
  by_cases hc : inp.compExists
  · rw [if_neg (by simp [hc])]
    cases hpdf : inp.pdfOutcome with
    | error e => exact Or.inr (Or.inl ⟨e, rfl, rfl, rfl⟩)
    | ok t0 => exact Or.inr (Or.inr ⟨t0, rfl, rfl, rfl⟩)
  · rw [if_pos (by simpa using hc)]
    exact Or.inl ⟨rfl, rfl⟩

/-- Shape of one `research_and_ingest` run: either nothing is persisted,
or the source rows are the fetched-text rows plus (when any search result
carries a snippet) the snippet source, and the chunks likewise. -/
theorem research_shape (inp : ResearchInput) (redact : String → String) :
    ((research_and_ingest inp redact).sources = [] ∧
      (research_and_ingest inp redact).allChunks = []) ∨
    (∃ pairs, inp.searchOutcome = .ok pairs ∧
      (research_and_ingest inp redact).sources
        = (if (snippetTexts (pairs.map Prod.fst)).isEmpty
            then (fetch_research_results pairs 5).map (fun f =>
              ({ url := some f.2.2, source_type := "research_" ++ f.2.1,
                 status := "done", raw_content := some (pyTake 10000 (redact f.1)),
                 error_message := none } : SourceRow))
            else (fetch_research_results pairs 5).map (fun f =>
              ({ url := some f.2.2, source_type := "research_" ++ f.2.1,
                 status := "done", raw_content := some (pyTake 10000 (redact f.1)),
                 error_message := none } : SourceRow))
              ++ [{ url := none, source_type := "research_snippets", status := "done",
                    raw_content := some (pyTake 10000
                      (pyJoin "\n\n" (snippetTexts (pairs.map Prod.fst)))),
                    error_message := none }]) ∧
      (research_and_ingest inp redact).allChunks
        = (if (snippetTexts (pairs.map Prod.fst)).isEmpty
            then ((fetch_research_results pairs 5).map (fun f =>
              (chunk_text (redact f.1)).map (fun c => (c, f.2.2)))).flatten
            else ((fetch_research_results pairs 5).map (fun f =>
              (chunk_text (redact f.1)).map (fun c => (c, f.2.2)))).flatten
              ++ [(pyJoin "\n\n" (snippetTexts (pairs.map Prod.fst)),
                   "search_snippets")])) := by
  unfold research_and_ingest
  by_cases hc : inp.compExists
  · rw [if_neg (by simp [hc])]
    cases hso : inp.searchOutcome with
    | error e => exact Or.inl ⟨rfl, rfl⟩
    | ok pairs =>
      dsimp only
      by_cases hpe : pairs.isEmpty
      · rw [if_pos hpe]
        exact Or.inl ⟨rfl, rfl⟩
      · rw [if_neg hpe]
        refine Or.inr ⟨pairs, rfl, ?_⟩
        constructor <;> (split <;> (split <;> rfl))
  · rw [if_pos (by simpa using hc)]
    exact Or.inl ⟨rfl, rfl⟩

/-- C8: in all three ingestion variants, every text delivered by the
fetch/parse/extract collaborators passes through `redact_pii` (here the
abstract `redact`) before persistence and before entering the chunk list
that feeds the extraction prompt: every `done` Source row's `raw_content`
is the truncated redaction of an extracted text, and every prompt chunk is
a chunk of a redacted extracted text — except, in the auto-research
variant, the snippet source, whose content is built solely from search
result metadata (titles/urls/snippets), not from any extracted text. -/
theorem pii_redacted_before_persistence (redact : String → String) :
    (∀ (inp : IngestInput) (st : String),
      (∀ s ∈ (ingest_sources inp st redact).sources, s.status = "done" →
        ∃ t ∈ extractedTextsIngest inp,
          s.raw_content = some (pyTake 10000 (redact t))) ∧
      (∀ p ∈ (ingest_sources inp st redact).allChunks,
        ∃ t ∈ extractedTextsIngest inp, p.1 ∈ chunk_text (redact t))) ∧
    (∀ inp : PdfInput,
      (∀ s ∈ (ingest_pdf inp redact).sources, s.status = "done" →
        ∃ t0, inp.pdfOutcome = .ok t0 ∧
          s.raw_content = some (pyTake 10000 (redact t0))) ∧
      (∀ p ∈ (ingest_pdf inp redact).allChunks,
        ∃ t0, inp.pdfOutcome = .ok t0 ∧ p.1 ∈ chunk_text (redact t0))) ∧
    (∀ inp : ResearchInput,
      (∀ s ∈ (research_and_ingest inp redact).sources, s.status = "done" →
        (∃ t ∈ fetchedTexts inp, s.raw_content = some (pyTake 10000 (redact t))) ∨
        s.raw_content
          = some (pyTake 10000 (pyJoin "\n\n" (snippetTexts (researchResults inp))))) ∧
      (∀ p ∈ (research_and_ingest inp redact).allChunks,
        (∃ t ∈ fetchedTexts inp, p.1 ∈ chunk_text (redact t)) ∨
        p.1 = pyJoin "\n\n" (snippetTexts (researchResults inp)))) := by
  refine ⟨fun inp st => ?_, fun inp => ?_, fun inp => ?_⟩
  · by_cases hc : inp.compExists
    · have hsh := ingest_sources_shape inp st redact (by simpa using hc)
      constructor
      · intro s hs hdone
        rw [hsh.1] at hs
        rcases List.mem_append.1 hs with hs | hs
        · obtain ⟨uf, huf, rfl⟩ := List.mem_map.1 hs
          cases hout : uf.outcome with
          | ok pr =>
            obtain ⟨t, ty⟩ := pr
            refine ⟨t, List.mem_append.2 (Or.inl
              (List.mem_filterMap.2 ⟨uf, huf, by rw [hout]⟩)), ?_⟩
            unfold urlSourceRow
            rw [hout]
          | error e =>
            unfold urlSourceRow at hdone
            rw [hout] at hdone
            simp at hdone
        · obtain ⟨raw, hraw, rfl⟩ := List.mem_map.1 hs
          cases hpar : parse_raw_text raw with
          | ok pr =>
            obtain ⟨t, ty⟩ := pr
            refine ⟨t, List.mem_append.2 (Or.inr
              (List.mem_filterMap.2 ⟨raw, hraw, by rw [hpar]⟩)), ?_⟩
            unfold rawSourceRow
            rw [hpar]
          | error e =>
            unfold rawSourceRow at hdone
            rw [hpar] at hdone
            simp at hdone
      · intro p hp
        rw [hsh.2] at hp
        rcases List.mem_append.1 hp with hp | hp
        · obtain ⟨l, hl, hpl⟩ := List.mem_flatten.1 hp
          obtain ⟨uf, huf, rfl⟩ := List.mem_map.1 hl
          cases hout : uf.outcome with
          | ok pr =>
            obtain ⟨t, ty⟩ := pr
            unfold urlChunksOf at hpl
            rw [hout] at hpl
            obtain ⟨c, hcm, rfl⟩ := List.mem_map.1 hpl
            exact ⟨t, List.mem_append.2 (Or.inl
              (List.mem_filterMap.2 ⟨uf, huf, by rw [hout]⟩)), hcm⟩
          | error e =>
            unfold urlChunksOf at hpl
            rw [hout] at hpl
            cases hpl
        · obtain ⟨l, hl, hpl⟩ := List.mem_flatten.1 hp
          obtain ⟨raw, hraw, rfl⟩ := List.mem_map.1 hl
          cases hpar : parse_raw_text raw with
          | ok pr =>
            obtain ⟨t, ty⟩ := pr
            unfold rawChunksOf at hpl
            rw [hpar] at hpl
            obtain ⟨c, hcm, rfl⟩ := List.mem_map.1 hpl
            exact ⟨t, List.mem_append.2 (Or.inr
              (List.mem_filterMap.2 ⟨raw, hraw, by rw [hpar]⟩)), hcm⟩
          | error e =>
            unfold rawChunksOf at hpl
            rw [hpar] at hpl
            cases hpl
    · have hsh := ingest_sources_shape_nf inp st redact (by simpa using hc)
      refine ⟨fun s hs => ?_, fun p hp => ?_⟩
      · rw [hsh.1] at hs
        cases hs
      · rw [hsh.2] at hp
        cases hp
  · rcases ingest_pdf_shape inp redact with ⟨h1, h2⟩ | ⟨e, he, h1, h2⟩ | ⟨t0, ht, h1, h2⟩
    · refine ⟨fun s hs => ?_, fun p hp => ?_⟩
      · rw [h1] at hs
        cases hs
      · rw [h2] at hp
        cases hp
    · constructor
      · intro s hs hdone
        rw [h1] at hs
        rcases List.mem_singleton.1 hs with rfl
        simp at hdone
      · intro p hp
        rw [h2] at hp
        cases hp
    · constructor
      · intro s hs hdone
        rw [h1] at hs
        rcases List.mem_singleton.1 hs with rfl
        exact ⟨t0, ht, rfl⟩
      · intro p hp
        rw [h2] at hp
        obtain ⟨c, hcm, rfl⟩ := List.mem_map.1 hp
        exact ⟨t0, ht, hcm⟩
  · rcases research_shape inp redact with ⟨h1, h2⟩ | ⟨pairs, hso, h1, h2⟩
    · refine ⟨fun s hs => ?_, fun p hp => ?_⟩
      · rw [h1] at hs
        cases hs
      · rw [h2] at hp
        cases hp
    · have hft : fetchedTexts inp = (fetch_research_results pairs 5).map (fun f => f.1) := by
        unfold fetchedTexts
        rw [hso]
      have hrr : researchResults inp = pairs.map Prod.fst := by
        unfold researchResults
        rw [hso]
      constructor
      · intro s hs hdone
        rw [h1] at hs
        by_cases hsn : (snippetTexts (pairs.map Prod.fst)).isEmpty
        · rw [if_pos hsn] at hs
          obtain ⟨f, hf, rfl⟩ := List.mem_map.1 hs
          exact Or.inl ⟨f.1, by rw [hft]; exact List.mem_map.2 ⟨f, hf, rfl⟩, rfl⟩
        · rw [if_neg hsn] at hs
          rcases List.mem_append.1 hs with hs | hs
          · obtain ⟨f, hf, rfl⟩ := List.mem_map.1 hs
            exact Or.inl ⟨f.1, by rw [hft]; exact List.mem_map.2 ⟨f, hf, rfl⟩, rfl⟩
          · rcases List.mem_singleton.1 hs with rfl
            refine Or.inr ?_
            rw [hrr]
      · intro p hp
        rw [h2] at hp
        by_cases hsn : (snippetTexts (pairs.map Prod.fst)).isEmpty
        · rw [if_pos hsn] at hp
          obtain ⟨l, hl, hpl⟩ := List.mem_flatten.1 hp
          obtain ⟨f, hf, rfl⟩ := List.mem_map.1 hl
          obtain ⟨c, hcm, rfl⟩ := List.mem_map.1 hpl
          exact Or.inl ⟨f.1, by rw [hft]; exact List.mem_map.2 ⟨f, hf, rfl⟩, hcm⟩
        · rw [if_neg hsn] at hp
          rcases List.mem_append.1 hp with hp | hp
          · obtain ⟨l, hl, hpl⟩ := List.mem_flatten.1 hp
            obtain ⟨f, hf, rfl⟩ := List.mem_map.1 hl
            obtain ⟨c, hcm, rfl⟩ := List.mem_map.1 hpl
            exact Or.inl ⟨f.1, by rw [hft]; exact List.mem_map.2 ⟨f, hf, rfl⟩, hcm⟩
          · rcases List.mem_singleton.1 hp with rfl
            refine Or.inr ?_
            rw [hrr]

/-- C8 witness input: one URL whose fetched page contains an e-mail
address. -/
def c8Input : IngestInput :=
  { compExists := true
    urlFetches := [⟨"https://ok.example/",
      .ok ("Contact alice@example.com for an enterprise quote", "web")⟩]
    rawTexts := []
    extraction := .ok []
    rawThemes := [] }

/-- C8 witness: at a concrete run (with a redaction function that blanks
its input), the persisted `done` source's `raw_content` is the truncated
redaction of the extracted text. -/
theorem pii_redacted_before_persistence_witness :
    ∃ t ∈ extractedTextsIngest c8Input,
      SourceRow.raw_content
        { url := some "https://ok.example/", source_type := "web", status := "done",
          raw_content := some (pyTake 10000 "[REDACTED]"), error_message := none }
        = some (pyTake 10000 ((fun _ => "[REDACTED]") t)) :=
  ((pii_redacted_before_persistence (fun _ => "[REDACTED]")).1 c8Input "manual").1
    { url := some "https://ok.example/", source_type := "web", status := "done",
      raw_content := some (pyTake 10000 "[REDACTED]"), error_message := none }
    (by decide) (by decide)
